import Mathlib

/-
Verification of the pretty_dtoa float-formatting library, a shallow embedding
of src/lib.rs. Digits are modelled as their numeric values 0..9 (the Rust code
stores ASCII bytes obtained by the bijection digit_to_u8; every arithmetic
step in the source is invariant under this shift, and comparisons against
digit_to_u8(5) and digit_to_u8(10) translate to comparisons against 5 and 10).
Fallible operations (vector indexing on an empty buffer, usize underflow
followed by out-of-range drain) are modelled with Option: none marks a
Rust-level panic.
-/

namespace PrettyDtoa

/-- src/lib.rs RoundMode (lines 71-75). -/
inductive RoundMode where
  | Round
  | Truncate
deriving DecidableEq, Repr

/-- src/lib.rs FmtFloatConfig (lines 90-130). The fields force_e and
force_no_e carry the source names force_e_notation / force_no_e_notation.
The integer-typed fields (u8 / i8 in the source) are modelled as Nat / Int;
every value constructible through the public API stays in the machine range,
and the places where the source performs a wrapping cast are modelled with
an explicit mod 256. -/
structure FmtFloatConfig where
  max_sig_digits : Option Nat
  min_sig_digits : Option Nat
  max_decimal_digits : Option Int
  min_decimal_digits : Option Int
  upper_e_break : Int
  lower_e_break : Int
  ignore_extremes : Option Nat
  round_mode : RoundMode
  force_e : Bool
  force_no_e : Bool
  capitalize_e : Bool
  add_point_zero : Bool
  max_width : Option Nat
  radix_point : Char
deriving DecidableEq, Repr

/-- src/lib.rs FmtFloatConfig::default (lines 137-154). -/
def FmtFloatConfig.default : FmtFloatConfig where
  max_sig_digits := none
  min_sig_digits := none
  max_decimal_digits := none
  min_decimal_digits := none
  upper_e_break := 4
  lower_e_break := -4
  ignore_extremes := none
  round_mode := RoundMode.Round
  force_e := false
  force_no_e := false
  capitalize_e := false
  add_point_zero := true
  max_width := none
  radix_point := '.'

/-- Rendering a digit value as its character, inverse of the ASCII shift. -/
def digitChar (d : Nat) : Char := Char.ofNat (48 + d)

/-- The carry cascade of the shared round-up block, walking the digit list
from the least significant end (the source walks indices downward, popping
each digit that overflows to 10). Reaching the end of the reversed list
means the carry passed the leading digit: the source then sets digits[0] to
1 and increments the exponent (src/lib.rs lines 295-304). -/
def carryRev : List Nat → Int → List Nat × Int
  | [], e => ([1], e + 1)
  | d :: rest, e => if d + 1 = 10 then carryRev rest e else ((d + 1) :: rest, e)

/-- The shared round-up block (src/lib.rs lines 292-305, 314-327, 412-426):
increment the last digit and cascade the carry leftward, popping overflowed
digits, collapsing to the single digit 1 with the exponent bumped when the
carry passes the leading digit. On an empty digit buffer the source
evaluates digits.len() - 1 (usize underflow) and then indexes out of
bounds, which is a panic: modelled as none. -/
def roundUp (digits : List Nat) (e : Int) : Option (List Nat × Int) :=
  match digits with
  | [] => none
  | _ :: _ =>
    let p := carryRev digits.reverse e
    some (p.1.reverse, p.2)

/-- Stage 1, significant-digit cap (src/lib.rs lines 286-307). -/
def applyMaxSig (digits : List Nat) (e : Int) (c : FmtFloatConfig) :
    Option (List Nat × Int) :=
  match c.max_sig_digits with
  | none => some (digits, e)
  | some limit =>
    if limit < digits.length then
      let removed := digits.getD limit 0
      let kept := digits.take limit
      if c.round_mode = RoundMode.Round ∧ 5 ≤ removed then
        roundUp kept e
      else
        some (kept, e)
    else
      some (digits, e)

/-- Stage 2, decimal-digit cap (src/lib.rs lines 308-329). -/
def applyMaxDec (digits : List Nat) (e : Int) (c : FmtFloatConfig) :
    Option (List Nat × Int) :=
  match c.max_decimal_digits with
  | none => some (digits, e)
  | some limit =>
    let pos := limit + e
    if 0 ≤ pos ∧ pos < (digits.length : Int) then
      let posN := pos.toNat
      let final := digits.getD posN 0
      let kept := digits.take posN
      if c.round_mode = RoundMode.Round ∧ 5 ≤ final then
        roundUp kept e
      else
        some (kept, e)
    else
      some (digits, e)

/-- Plain increment of the last digit of a nonempty list, the adjustment the
source applies to the digit preceding a suppressed all-9 run
(src/lib.rs line 354). -/
def incLast : List Nat → List Nat
  | [] => []
  | [d] => [d + 1]
  | d :: rest => d :: incLast rest

/-- The extreme-run scan loop of stage 3 (src/lib.rs lines 335-372).
State: remaining digits, the stripped prefix built so far, and the two
run counters. The counter update and the trigger tests mirror the source:
the 9 test runs first, a digit resets the counter of the other kind, and a
trigger truncates the stripped prefix just before the counted run. -/
def stripLoop (limit : Nat) (e : Int) :
    List Nat → List Nat → Nat → Nat → List Nat × Int
  | [], stripped, _, _ => (stripped, e)
  | d :: rest, stripped, nines, zeros =>
    if d = 9 then
      let nines' := nines + 1
      if limit ≤ nines' then
        let kept := stripped.take (stripped.length + 1 - nines')
        if kept.length = 0 then
          ([1], e + 1)
        else
          (incLast kept, e)
      else
        stripLoop limit e rest (stripped ++ [d]) nines' 0
    else if d = 0 then
      let zeros' := zeros + 1
      if limit ≤ zeros' then
        (stripped.take (stripped.length + 1 - zeros'), e)
      else
        stripLoop limit e rest (stripped ++ [d]) 0 zeros'
    else
      stripLoop limit e rest (stripped ++ [d]) 0 0

/-- Stage 3, extreme-run suppression (src/lib.rs lines 330-374). -/
def applyIgnoreExtremes (digits : List Nat) (e : Int) (c : FmtFloatConfig) :
    List Nat × Int :=
  match c.ignore_extremes with
  | none => (digits, e)
  | some limit => stripLoop limit e digits [] 0 0

/-- Stage 4, minimum-significant-digit padding (src/lib.rs lines 375-382).
The source counts with a u8 initialized from digits.len() as u8, hence the
mod 256. -/
def applyMinSig (digits : List Nat) (c : FmtFloatConfig) : List Nat :=
  match c.min_sig_digits with
  | none => digits
  | some limit =>
    let curr := digits.length % 256
    digits ++ List.replicate (limit - curr) 0

/-- Stage 5, minimum-decimal-digit padding (src/lib.rs lines 383-389). -/
def applyMinDec (digits : List Nat) (e : Int) (c : FmtFloatConfig) : List Nat :=
  match c.min_decimal_digits with
  | none => digits
  | some limit =>
    let target := limit + e
    if (digits.length : Int) < target then
      digits ++ List.replicate (target.toNat - digits.length) 0
    else
      digits

/-- The notation decision of src/lib.rs line 390. -/
def useENotn (e : Int) (c : FmtFloatConfig) : Bool :=
  (decide (c.upper_e_break < e) || decide (e ≤ c.lower_e_break) || c.force_e)
    && !c.force_no_e

/-- Stage 6 and 7, notation decision and width budgeting
(src/lib.rs lines 390-429). Returns the final notation flag together with
the possibly trimmed digits and exponent. The sign-adjusted width
max_width - 1 is a wrapping u8 subtraction, hence (mw + 255) % 256; the
cast e as u8 on line 406 is e % 256 (the guard keeps e positive there).
The drain start max_width - extra_length is a usize subtraction: when
extra exceeds the width it underflows and the subsequent drain panics,
modelled as none, as is the round-up on an emptied buffer. -/
def applyMaxWidth (sign : Bool) (digits : List Nat) (e : Int)
    (c : FmtFloatConfig) : Option (Bool × List Nat × Int) :=
  let useE := useENotn e c
  match c.max_width with
  | none => some (useE, digits, e)
  | some mw0 =>
    let mw := if sign then (mw0 + 255) % 256 else mw0
    if 0 < e ∧ (mw : Int) < e + (if c.add_point_zero then 2 else 0) then
      some (true, digits, e)
    else if (mw : Int) < -e + 3 then
      some (true, digits, e)
    else if useE = false then
      let isInteger := (digits.length : Int) < e
      let extra : Int :=
        (if c.add_point_zero ∧ isInteger then 2 else 0)
        + (if ¬ isInteger ∧ ¬ (0 < e ∧ e % 256 = (mw : Int)) then 1 else 0)
        + (if 0 < e ∧ (digits.length : Int) < e then e - digits.length else 0)
        + (if e ≤ 0 then -e + 1 else 0)
      if (mw : Int) < (digits.length : Int) + extra then
        if (mw : Int) < extra then none
        else
          let start := ((mw : Int) - extra).toNat
          if digits.length < start then none
          else
            let final := digits.getD start 0
            let kept := digits.take start
            if c.round_mode = RoundMode.Round ∧ 5 ≤ final then
              match roundUp kept e with
              | none => none
              | some p => some (false, p.1, p.2)
            else
              some (false, kept, e)
      else
        some (false, digits, e)
    else
      some (useE, digits, e)

/-- Generic scientific-notation assembly (src/lib.rs lines 454-476). -/
def renderEGeneric (sign : Bool) (d0 : Nat) (tail : List Nat) (e : Int)
    (c : FmtFloatConfig) : String :=
  (if sign then "-" else "")
  ++ String.singleton (digitChar d0)
  ++ String.singleton c.radix_point
  ++ (match tail with
      | [] => if c.max_width.isSome then "" else "0"
      | _ :: _ => String.mk (tail.map digitChar))
  ++ (if c.capitalize_e then "E" else "e")
  ++ toString (e - 1)

/-- Scientific-notation branch (src/lib.rs lines 431-476): under a width
budget the mantissa tail is truncated to the leftover budget (with no
rounding), with a special single-width case for a signed value at width
exactly 7; then the generic assembly runs. digits.drain(1..) panics on an
empty buffer, modelled as none. -/
def renderE (sign : Bool) (digits : List Nat) (e : Int)
    (c : FmtFloatConfig) : Option String :=
  match digits with
  | [] => none
  | d0 :: tail0 =>
    match c.max_width with
    | none => some (renderEGeneric sign d0 tail0 e c)
    | some mw =>
      let eStr := toString (e - 1)
      let extra := 3 + eStr.length + (if sign then 1 else 0)
      let tail := if mw ≤ extra then [] else tail0.take (mw - extra)
      if tail.length = 0 ∧ mw = 7 ∧ sign then
        some ("-" ++ String.singleton (digitChar d0)
          ++ (if c.capitalize_e then "E" else "e") ++ eStr)
      else
        some (renderEGeneric sign d0 tail e c)

/-- The digit-emission loop of the plain-notation assembly
(src/lib.rs lines 491-497), carrying the running position curr. -/
def plainLoop (radix : Char) (e : Int) : List Nat → Int → String
  | [], _ => ""
  | d :: rest, curr =>
    (if 0 < e ∧ curr = e then String.singleton radix else "")
      ++ String.singleton (digitChar d) ++ plainLoop radix e rest (curr + 1)

/-- Plain-notation assembly (src/lib.rs lines 478-508). -/
def renderPlain (sign : Bool) (digits : List Nat) (e : Int)
    (c : FmtFloatConfig) : String :=
  let head := (if sign then "-" else "")
    ++ (if e ≤ 0 then
          "0" ++ String.singleton c.radix_point
            ++ String.mk (List.replicate (-e).toNat '0')
        else "")
  let body := plainLoop c.radix_point e digits 0
  let curr : Int := digits.length
  let isInteger := curr ≤ e
  let zeros :=
    if 0 < e ∧ curr < e then String.mk (List.replicate (e - curr).toNat '0')
    else ""
  let pz :=
    if isInteger ∧ c.add_point_zero then String.singleton c.radix_point ++ "0"
    else ""
  head ++ body ++ zeros ++ pz

/-- Stages 1 through 5 of digits_to_a, everything before the notation
decision. -/
def preRender (digits0 : List Nat) (e0 : Int) (c : FmtFloatConfig) :
    Option (List Nat × Int) :=
  match applyMaxSig digits0 e0 c with
  | none => none
  | some p1 =>
    match applyMaxDec p1.1 p1.2 c with
    | none => none
    | some p2 =>
      let p3 := applyIgnoreExtremes p2.1 p2.2 c
      let d4 := applyMinSig p3.1 c
      let d5 := applyMinDec d4 p3.2 c
      some (d5, p3.2)

/-- The main formatting function digits_to_a (src/lib.rs lines 281-509).
The value rendered is (sign gives the dash) 0.digits times 10 to the e.
none marks a Rust-level panic. -/
def digits_to_a (sign : Bool) (digits0 : List Nat) (e0 : Int)
    (c : FmtFloatConfig) : Option String :=
  match preRender digits0 e0 c with
  | none => none
  | some p =>
    match applyMaxWidth sign p.1 p.2 c with
    | none => none
    | some q =>
      if q.1 then renderE sign q.2.1 q.2.2 c
      else some (renderPlain sign q.2.1 q.2.2 c)

/-- Special-value dispatch of dtoa (src/lib.rs lines 529-533): NaN, then
infinity with no sign test, before the ryu backend runs. none means the
value reaches the numeric pipeline. -/
def dtoaSpecial (isNan : Bool) (isInf : Bool) (_isNeg : Bool) : Option String :=
  if isNan then some "NaN"
  else if isInf then some "inf"
  else none

/-- Special-value dispatch of ftoa (src/lib.rs lines 544-552): NaN, then
infinity split on is_sign_positive. -/
def ftoaSpecial (isNan : Bool) (isInf : Bool) (isNeg : Bool) : Option String :=
  if isNan then some "NaN"
  else if isInf then (if !isNeg then some "inf" else some "-inf")
  else none

/-- The finite-value tail of dtoa (src/lib.rs lines 534-538): the sign is the
sign bit of the value, the digits and exponent come from the ryu backend, and
the exponent handed to digits_to_a is ryu exponent plus digit count. -/
def dtoaFromRyu (sign : Bool) (mantissaDigits : List Nat) (ryuExp : Int)
    (c : FmtFloatConfig) : Option String :=
  digits_to_a sign mantissaDigits (ryuExp + mantissaDigits.length) c

/-- Modelled from the spec: the shortest-round-trip backend
ryu_floating_decimal::d2d is an external crate, absent from src/, so its
zero output is modelled from the spec. Spec 4.2: exact zero returns a
single zero digit, bypassing the algorithm; spec 4.4: zero renders
directly from its digit sequence [0]. Both 0.0 and -0.0 share this
magnitude decomposition; the sign bit is read separately by the facade. -/
def specZeroDigits : List Nat := [0]

/-- Modelled from the spec: the DecimalExponent for exact zero, in the
convention of spec section 3 that the renderer consumes (the value is
0.d1d2... times 10 to the E). Spec 4.2 gives exact zero exponent zero,
matching the in-repo sibling generator raw::dtoa, whose zero case returns
(vec![0], 0) in this same convention. -/
def specZeroExp : Int := 0

/-- The zero path of the public conversion on the spec model: the sign is
read from the sign bit of the value (src/lib.rs line 535) independently of
the magnitude, and the renderer consumes the zero digit sequence and
DecimalExponent directly. -/
def dtoaZero (sign : Bool) (c : FmtFloatConfig) : Option String :=
  digits_to_a sign specZeroDigits specZeroExp c

/-- Claim-side description of stage 3, following the spec wording of 4.4
step 3: scan for the first run of at least N identical digits that are all
9 or all 0, truncate at the start of the run, and for an all-9 run apply
the same cascading-carry rule as the truncation stages (carryRev) to the
kept prefix, which collapses to the single digit 1 with the exponent
incremented when the run starts at the leading digit. Identical to
stripLoop except at the all-9 trigger, where the source performs a plain
increment of the preceding digit instead of the shared carry cascade. -/
def stripSpecLoop (limit : Nat) (e : Int) :
    List Nat → List Nat → Nat → Nat → List Nat × Int
  | [], stripped, _, _ => (stripped, e)
  | d :: rest, stripped, nines, zeros =>
    if d = 9 then
      let nines' := nines + 1
      if limit ≤ nines' then
        let kept := stripped.take (stripped.length + 1 - nines')
        let p := carryRev kept.reverse e
        (p.1.reverse, p.2)
      else
        stripSpecLoop limit e rest (stripped ++ [d]) nines' 0
    else if d = 0 then
      let zeros' := zeros + 1
      if limit ≤ zeros' then
        (stripped.take (stripped.length + 1 - zeros'), e)
      else
        stripSpecLoop limit e rest (stripped ++ [d]) 0 zeros'
    else
      stripSpecLoop limit e rest (stripped ++ [d]) 0 0

/-- Claim-side extreme-run suppression on a whole digit sequence. -/
def stripSpec (limit : Nat) (digits : List Nat) (e : Int) : List Nat × Int :=
  stripSpecLoop limit e digits [] 0 0

/-- Claim-side description of stage 1, following the spec wording of 4.4
step 1: truncate at the significant-digit cap; in round mode, when the
first dropped digit is at least 5, run the cascading carry (carryRev) on
the kept digits; in truncate mode, no adjustment. -/
def trimSigSpec (limit : Nat) (digits : List Nat) (e : Int)
    (mode : RoundMode) : List Nat × Int :=
  if limit < digits.length then
    let kept := digits.take limit
    if mode = RoundMode.Round ∧ 5 ≤ digits.getD limit 0 then
      let p := carryRev kept.reverse e
      (p.1.reverse, p.2)
    else
      (kept, e)
  else
    (digits, e)

/-- Configuration of the C1 panic: max_significant_digits(0), round mode
(the default). -/
def cfgSig0 : FmtFloatConfig :=
  { FmtFloatConfig.default with max_sig_digits := some 0 }

/-- Configuration of the second C1 panic: ignore_extremes(1) together with
force_e_notation(). The builder clears the opposite force flag, which is
already clear in the default. -/
def cfgZeroExtreme : FmtFloatConfig :=
  { FmtFloatConfig.default with ignore_extremes := some 1, force_e := true }

/-- Configuration default().force_no_e_notation().max_width(7) of the C4
width overflow. The builder force_no_e_notation clears force_e_notation,
already clear in the default. -/
def cfgWidth7NoE : FmtFloatConfig :=
  { FmtFloatConfig.default with force_no_e := true, max_width := some 7 }

/-- Configuration default().upper_e_break(3). -/
def cfgUpper3 : FmtFloatConfig :=
  { FmtFloatConfig.default with upper_e_break := 3 }

/-- Configuration default().ignore_extremes(3). -/
def cfgExtremes3 : FmtFloatConfig :=
  { FmtFloatConfig.default with ignore_extremes := some 3 }

/-- Configuration default().round().max_significant_digits(5). -/
def cfgSig5 : FmtFloatConfig :=
  { FmtFloatConfig.default with max_sig_digits := some 5 }

/-- Configuration default().truncate().max_significant_digits(4). -/
def cfgSig4T : FmtFloatConfig :=
  { FmtFloatConfig.default with max_sig_digits := some 4, round_mode := RoundMode.Truncate }

/-- Configuration default().round().max_significant_digits(4). -/
def cfgSig4R : FmtFloatConfig :=
  { FmtFloatConfig.default with max_sig_digits := some 4 }

/-- Configuration default().max_width(6), round mode the default. -/
def cfgWidth6 : FmtFloatConfig :=
  { FmtFloatConfig.default with max_width := some 6 }

/-- Configuration default().truncate().max_width(6). -/
def cfgWidth6T : FmtFloatConfig :=
  { FmtFloatConfig.default with max_width := some 6, round_mode := RoundMode.Truncate }

/-- Configuration default().add_point_zero(false). -/
def cfgNoPz : FmtFloatConfig :=
  { FmtFloatConfig.default with add_point_zero := false }

theorem incLast_concat (l : List Nat) (g : Nat) :
    incLast (l ++ [g]) = l ++ [g + 1] := by
  induction l with
  | nil => rfl
  | cons d rest ih =>
    cases rest with
    | nil => rfl
    | cons x xs =>
      simp only [List.cons_append, incLast]
      exact congrArg (d :: ·) ih

theorem stripTrigger_eq (kept : List Nat) (e : Int)
    (h9 : kept.getLast? ≠ some 9) (hval : ∀ x ∈ kept, x ≤ 9) :
    (if kept.length = 0 then ([1], e + 1) else (incLast kept, e)) =
      ((carryRev kept.reverse e).1.reverse, (carryRev kept.reverse e).2) := by
  rcases kept.eq_nil_or_concat with rfl | ⟨l, g, rfl⟩
  · simp [carryRev]
  · rw [List.concat_eq_append] at *
    have hg : g ≤ 9 := hval g (by simp)
    have hg9 : g ≠ 9 := by
      intro hgg
      exact h9 (by rw [hgg] at *; exact List.getLast?_concat l)
    have hten : ¬ (g + 1 = 10) := by omega
    have hrev : (l ++ [g]).reverse = g :: l.reverse := by simp
    have hlen : (l ++ [g]).length ≠ 0 := by simp
    rw [if_neg hlen, hrev]
    simp only [carryRev, if_neg hten]
    rw [incLast_concat]
    simp

theorem stripLoop_eq_specLoop (limit : Nat) (e : Int) (ds : List Nat) :
    ∀ (stripped : List Nat) (nines zeros : Nat),
      (∀ d ∈ stripped, d ≤ 9) →
      (∀ d ∈ ds, d ≤ 9) →
      (stripped.take (stripped.length - nines)).getLast? ≠ some 9 →
      stripLoop limit e ds stripped nines zeros =
        stripSpecLoop limit e ds stripped nines zeros := by
  induction ds with
  | nil => intro stripped nines zeros _ _ _; rfl
  | cons d rest ih =>
    intro stripped nines zeros hs hd hinv
    have hdle : d ≤ 9 := hd d (by simp)
    have hrest : ∀ x ∈ rest, x ≤ 9 := fun x hx => hd x (by simp [hx])
    simp only [stripLoop, stripSpecLoop]
    by_cases h9 : d = 9
    · simp only [if_pos h9]
      by_cases ht : limit ≤ nines + 1
      · simp only [if_pos ht]
        have hsub : stripped.length + 1 - (nines + 1) =
            stripped.length - nines := Nat.succ_sub_succ _ _
        rw [hsub]
        exact stripTrigger_eq (stripped.take (stripped.length - nines)) e hinv
          (fun x hx => hs x (List.take_subset _ _ hx))
      · simp only [if_neg ht]
        apply ih
        · intro x hx
          rcases List.mem_append.mp hx with hx | hx
          · exact hs x hx
          · simp at hx; omega
        · exact hrest
        · have hsub : (stripped ++ [d]).length - (nines + 1) =
              stripped.length - nines := by simp
          rw [hsub, List.take_append_of_le_length (Nat.sub_le _ _)]
          exact hinv
    · simp only [if_neg h9]
      by_cases h0 : d = 0
      · simp only [if_pos h0]
        by_cases ht : limit ≤ zeros + 1
        · simp only [if_pos ht]
        · simp only [if_neg ht]
          apply ih
          · intro x hx
            rcases List.mem_append.mp hx with hx | hx
            · exact hs x hx
            · simp at hx; omega
          · exact hrest
          · have hsub : (stripped ++ [d]).length - 0 =
                (stripped ++ [d]).length := Nat.sub_zero _
            rw [hsub, (stripped ++ [d]).take_length, List.getLast?_concat]
            intro hc
            exact h9 (Option.some.inj hc)
      · simp only [if_neg h0]
        apply ih
        · intro x hx
          rcases List.mem_append.mp hx with hx | hx
          · exact hs x hx
          · simp at hx; omega
        · exact hrest
        · have hsub : (stripped ++ [d]).length - 0 =
              (stripped ++ [d]).length := Nat.sub_zero _
          rw [hsub, (stripped ++ [d]).take_length, List.getLast?_concat]
          intro hc
          exact h9 (Option.some.inj hc)

/-- C1: the claim states dtoa and ftoa never panic for any finite input and
any configuration constructible through the public API, naming in
particular max_significant_digits(0) in round mode and ignore_extremes
combined with force_e_notation on an all-zero digit sequence. The code
panics on both. dtoa(5.0) hands digits [5] with exponent 1 to digits_to_a,
where the significant-digit cap of 0 empties the buffer and the round-up
block evaluates digits.len() - 1 on it. The zero value yields the digit
sequence [0], which ignore_extremes(1) empties, after which the forced
scientific notation indexes digits[0] of an empty vector, whatever the
exponent. -/
theorem digits_to_a_panics_on_degenerate_configs :
    digits_to_a false [5] 1 cfgSig0 = none
    ∧ ∀ e : Int, digits_to_a false [0] e cfgZeroExtreme = none := by
  refine ⟨rfl, ?_⟩
  intro e
  simp [digits_to_a, preRender, applyMaxSig, applyMaxDec, applyIgnoreExtremes,
    applyMinSig, applyMinDec, applyMaxWidth, useENotn, renderE, stripLoop,
    cfgZeroExtreme, FmtFloatConfig.default]

/-- C2: the claim states both entry points render negative infinity as
"-inf". dtoa (src/lib.rs line 531) returns "inf" for any infinity with no
sign test, while ftoa sign-splits; the dtoa half of the claim fails on the
code. -/
theorem dtoa_negative_infinity_token :
    dtoaSpecial false true true = some "inf"
    ∧ ftoaSpecial false true true = some "-inf"
    ∧ ("inf" : String) ≠ "-inf" := by
  refine ⟨rfl, rfl, by decide⟩

/-- C4: the claim bounds every output by max_width W for W at least 7. The
double 99999.95 has ryu digits 9999995 at decimal exponent 5; at
max_width(7) with force_no_e_notation the plain-path trim pass rounds the
kept digits 999999 up, collapsing to 1 with exponent 6, and the assembly
then emits "100000.0": 8 characters, exceeding the budget of 7. -/
theorem max_width_budget_exceeded :
    digits_to_a false [9, 9, 9, 9, 9, 9, 5] 5 cfgWidth7NoE = some "100000.0"
    ∧ cfgWidth7NoE.max_width = some 7
    ∧ 7 < ("100000.0" : String).length := by
  refine ⟨rfl, rfl, by decide⟩

/-- C5: with max_width unset, the output goes through the scientific branch
exactly when the line-390 predicate useENotn holds of the exponent after
the trimming stages (above upper_e_break, at or below lower_e_break, or
forced, and not suppressed); an exponent equal to upper_e_break stays
plain, and the marker is followed by e - 1: with upper_e_break 3, digits
18923 at exponent 4 render "1.8923e3" while 8923 at exponent 3 render
"892.3". -/
theorem notation_decision_max_width_unset (sign : Bool) (digits : List Nat)
    (e : Int) (c : FmtFloatConfig) (h : c.max_width = none) :
    (digits_to_a sign digits e c =
      match preRender digits e c with
      | none => none
      | some p =>
        if useENotn p.2 c then renderE sign p.1 p.2 c
        else some (renderPlain sign p.1 p.2 c))
    ∧ digits_to_a false [1, 8, 9, 2, 3] 4 cfgUpper3 = some "1.8923e3"
    ∧ digits_to_a false [8, 9, 2, 3] 3 cfgUpper3 = some "892.3" := by
  refine ⟨?_, rfl, rfl⟩
  unfold digits_to_a
  cases hp : preRender digits e c with
  | none => rfl
  | some p => simp only [applyMaxWidth, h]

/-- Witness for C5, instantiated at the default configuration. -/
theorem notation_decision_max_width_unset_witness :
    (digits_to_a false [1] 1 FmtFloatConfig.default =
      match preRender [1] 1 FmtFloatConfig.default with
      | none => none
      | some p =>
        if useENotn p.2 FmtFloatConfig.default then
          renderE false p.1 p.2 FmtFloatConfig.default
        else some (renderPlain false p.1 p.2 FmtFloatConfig.default))
    ∧ digits_to_a false [1, 8, 9, 2, 3] 4 cfgUpper3 = some "1.8923e3"
    ∧ digits_to_a false [8, 9, 2, 3] 3 cfgUpper3 = some "892.3" :=
  notation_decision_max_width_unset false [1] 1 FmtFloatConfig.default rfl

/-- C6: for valid digit sequences the extreme-run scan of the code equals
the claim-side description stripSpec, which truncates at the start of the
first run of at least N identical extreme digits and, for an all-9 run,
applies the shared cascading-carry rule to the kept prefix (collapsing to
the single digit 1 with the exponent incremented when the run starts at
the leading digit), while an all-0 run truncates with no adjustment; and
with ignore_extremes(3) the digits of 12.199921 render "12.2" and those of
12.10002 render "12.1". -/
theorem ignore_extremes_first_run (digits : List Nat) (e : Int) (limit : Nat)
    (hval : ∀ d ∈ digits, d ≤ 9) :
    applyIgnoreExtremes digits e
        { FmtFloatConfig.default with ignore_extremes := some limit } =
      stripSpec limit digits e
    ∧ digits_to_a false [1, 2, 1, 9, 9, 9, 2, 1] 2 cfgExtremes3 = some "12.2"
    ∧ digits_to_a false [1, 2, 1, 0, 0, 0, 2] 2 cfgExtremes3 = some "12.1" := by
  refine ⟨?_, rfl, rfl⟩
  exact stripLoop_eq_specLoop limit e digits [] 0 0
    (fun d hd => absurd hd (List.not_mem_nil d)) hval (by simp)

/-- Witness for C6, instantiated at the digit sequence 999. -/
theorem ignore_extremes_first_run_witness :
    (applyIgnoreExtremes [9, 9, 9] 3
        { FmtFloatConfig.default with ignore_extremes := some 3 } =
      stripSpec 3 [9, 9, 9] 3)
    ∧ digits_to_a false [1, 2, 1, 9, 9, 9, 2, 1] 2 cfgExtremes3 = some "12.2"
    ∧ digits_to_a false [1, 2, 1, 0, 0, 0, 2] 2 cfgExtremes3 = some "12.1" :=
  ignore_extremes_first_run [9, 9, 9] 3 3 (by decide)

/-- C7: with a significant-digit cap of at least 1, the stage-1 trim equals
the claim-side trimSigSpec: truncate at the cap; in round mode a first
dropped digit of at least 5 starts the cascading carry, popping
overflowing digits and collapsing to the single digit 1 with the exponent
incremented when the carry passes the leading digit; truncate mode makes
no adjustment. Concretely, at cap 5 in round mode 3.111111 renders
"3.1111" and 22.29999 renders "22.3"; at cap 4, 3.999999 renders "3.999"
in truncate mode and "4.0" in round mode. -/
theorem max_sig_digits_cap (digits : List Nat) (e : Int)
    (c : FmtFloatConfig) (limit : Nat) (h1 : c.max_sig_digits = some limit)
    (h2 : 1 ≤ limit) :
    applyMaxSig digits e c = some (trimSigSpec limit digits e c.round_mode)
    ∧ digits_to_a false [3, 1, 1, 1, 1, 1, 1] 1 cfgSig5 = some "3.1111"
    ∧ digits_to_a false [2, 2, 2, 9, 9, 9, 9] 2 cfgSig5 = some "22.3"
    ∧ digits_to_a false [3, 9, 9, 9, 9, 9, 9] 1 cfgSig4T = some "3.999"
    ∧ digits_to_a false [3, 9, 9, 9, 9, 9, 9] 1 cfgSig4R = some "4.0" := by
  refine ⟨?_, rfl, rfl, rfl, rfl⟩
  unfold applyMaxSig trimSigSpec
  rw [h1]
  by_cases hlen : limit < digits.length
  · simp only [if_pos hlen]
    by_cases hr : c.round_mode = RoundMode.Round ∧ 5 ≤ digits.getD limit 0
    · simp only [if_pos hr]
      have hne : digits.take limit ≠ [] := by
        rw [Ne, List.take_eq_nil_iff]
        push_neg
        refine ⟨by omega, ?_⟩
        intro hd
        rw [hd] at hlen
        simp at hlen
      cases htake : digits.take limit with
      | nil => exact absurd htake hne
      | cons a as => simp [roundUp]
    · simp only [if_neg hr]
  · simp only [if_neg hlen]

/-- Witness for C7, instantiated at cap 5 on three digits. -/
theorem max_sig_digits_cap_witness :
    (applyMaxSig [1, 2, 3] 1 cfgSig5 =
      some (trimSigSpec 5 [1, 2, 3] 1 cfgSig5.round_mode))
    ∧ digits_to_a false [3, 1, 1, 1, 1, 1, 1] 1 cfgSig5 = some "3.1111"
    ∧ digits_to_a false [2, 2, 2, 9, 9, 9, 9] 2 cfgSig5 = some "22.3"
    ∧ digits_to_a false [3, 9, 9, 9, 9, 9, 9] 1 cfgSig4T = some "3.999"
    ∧ digits_to_a false [3, 9, 9, 9, 9, 9, 9] 1 cfgSig4R = some "4.0" :=
  max_sig_digits_cap [1, 2, 3] 1 cfgSig5 5 rfl (by decide)

/-- C8 counterexample: with max_width 6 in round mode (the default), digits
1896 at exponent 6 take the scientific-notation over-budget path; the
first dropped tail digit is 6, at least 5, yet the output keeps 1.89
unrounded, whereas the rounding pass the claim describes would emit
"1.9e5". -/
theorem e_notn_tail_not_rounded_cex :
    digits_to_a false [1, 8, 9, 6] 6 cfgWidth6 = some "1.89e5"
    ∧ digits_to_a false [1, 8, 9, 6] 6 cfgWidth6 ≠ some "1.9e5" := by
  refine ⟨rfl, by decide⟩

/-- C8 amended: the extra over-budget pass applies the rounding and
carry-propagation rule only in the plain-notation path; the
scientific-notation path truncates the mantissa tail to the remaining
budget with no rounding, regardless of round_mode. The scientific branch
never reads round_mode, and at width 6 the plain path rounds digits 123456
up to "1.2346" in round mode but truncates to "1.2345" in truncate mode,
while the scientific output for digits 1896 at exponent 6 is "1.89e5" in
both modes. -/
theorem width_trim_rounds_only_in_plain :
    (∀ (sign : Bool) (digits : List Nat) (e : Int) (c : FmtFloatConfig)
        (m : RoundMode),
      renderE sign digits e { c with round_mode := m } =
        renderE sign digits e c)
    ∧ digits_to_a false [1, 2, 3, 4, 5, 6] 1 cfgWidth6 = some "1.2346"
    ∧ digits_to_a false [1, 2, 3, 4, 5, 6] 1 cfgWidth6T = some "1.2345"
    ∧ digits_to_a false [1, 8, 9, 6] 6 cfgWidth6T = some "1.89e5" := by
  refine ⟨?_, rfl, rfl, rfl⟩
  intro sign digits e c m
  cases c
  rfl

/-- C10 counterexample: on the spec-faithful zero model the renderer
receives DecimalExponent 0, so zero is rendered through the e <= 0 path,
which always emits the 0-point prefix before the zero digit; with
add_point_zero(false) the output is therefore "-0.0", not the "-0" the
claim states. -/
theorem negative_zero_point_zero_cex :
    dtoaZero true cfgNoPz = some "-0.0"
    ∧ dtoaZero true cfgNoPz ≠ some "-0" := by
  refine ⟨rfl, by decide⟩

/-- C10 amended: the sign of negative zero is preserved at the public
interface because the sign is read from the sign bit independently of the
magnitude: on the spec-modelled zero decomposition the default
configuration renders "-0.0", and with add_point_zero(false) the output
is also "-0.0" (the zero rendering path emits the 0-point prefix
unconditionally, so the flag has no effect on zero), while positive zero
carries no sign prefix in either configuration. -/
theorem negative_zero_sign_preserved_amended :
    dtoaZero true FmtFloatConfig.default = some "-0.0"
    ∧ dtoaZero true cfgNoPz = some "-0.0"
    ∧ dtoaZero false FmtFloatConfig.default = some "0.0"
    ∧ dtoaZero false cfgNoPz = some "0.0" := by
  refine ⟨rfl, rfl, rfl, rfl⟩

end PrettyDtoa
